import Mathlib

/-!
Verification of the whack-a-mole backend (`src/whack-a-mole/backend/app.py`)
against its natural-language specification.

The Python source is shallowly embedded: timestamps are rationals, Python
integers are `ℤ`, optional values are `Option`, and the per-session mutable
`GameState` dataclass is an immutable structure threaded through the
handlers.  Payload fields that may be absent or non-integers are modelled
with `Option`.
-/

namespace WhackAMole

/-- `class Difficulty(Enum)` with values "easy", "medium", "hard" (app.py lines 25-30). -/
inductive Difficulty where
  | easy
  | medium
  | hard
deriving DecidableEq

/-- The Python string value of a difficulty member (`Difficulty.EASY.value` etc.). -/
def Difficulty.value : Difficulty → String
  | .easy => "easy"
  | .medium => "medium"
  | .hard => "hard"

/-- One record of `DIFFICULTY_SETTINGS` (app.py lines 34-53). -/
structure Settings where
  mole_timeout : ℚ
  min_delay : ℚ
  max_delay : ℚ
  game_duration : ℤ
deriving DecidableEq

/-- `DIFFICULTY_SETTINGS` (app.py lines 34-53). -/
def DIFFICULTY_SETTINGS : Difficulty → Settings
  | .easy => { mole_timeout := 2, min_delay := 1, max_delay := 1.5, game_duration := 60 }
  | .medium => { mole_timeout := 1.5, min_delay := 0.3, max_delay := 1, game_duration := 60 }
  | .hard => { mole_timeout := 1, min_delay := 0.1, max_delay := 0.5, game_duration := 45 }

/-- The `GameState` dataclass (app.py lines 56-68); the `threading.Lock` field is
not data and operations on it are modelled separately (see `Action` below). -/
structure GameState where
  score : ℤ := 0
  misses : ℤ := 0
  active_mole : Option ℤ := none
  mole_spawn_time : ℚ := 0
  game_running : Bool := false
  game_start_time : ℚ := 0
  difficulty : Difficulty := .medium
  max_holes : ℤ := 6
deriving DecidableEq

/-- `GameState.settings` property (app.py lines 70-73). -/
def GameState.settings (gs : GameState) : Settings :=
  DIFFICULTY_SETTINGS gs.difficulty

/-- `GameState.game_duration` property (app.py lines 75-78). -/
def GameState.game_duration (gs : GameState) : ℤ :=
  gs.settings.game_duration

/-- `GameState.mole_timeout` property (app.py lines 80-83). -/
def GameState.mole_timeout (gs : GameState) : ℚ :=
  gs.settings.mole_timeout

/-- `GameState.reset(difficulty=None)` (app.py lines 95-105).  The Python guard
`if difficulty:` is true exactly when the argument is not `None`, since every
`Difficulty` enum member is truthy. -/
def GameState.reset (gs : GameState) (difficulty : Option Difficulty) : GameState :=
  { gs with
    score := 0
    misses := 0
    active_mole := none
    mole_spawn_time := 0
    game_running := false
    game_start_time := 0
    difficulty := match difficulty with
      | some d => d
      | none => gs.difficulty }

/-- The dict emitted as a `whack_result` payload.  Python builds dicts with
varying key sets, so every key except `success` is `Option`-al here; `none`
means the key is absent from the dict. -/
structure WhackResult where
  success : Bool
  hole : Option ℤ := none
  score : Option ℤ := none
  misses : Option ℤ := none
  reaction_time : Option ℚ := none
  time_remaining : Option ℚ := none
  active_mole : Option (Option ℤ) := none
  error : Option String := none
deriving DecidableEq

/-- `_process_whack_attempt(game_state, hole, current_time)` (app.py lines
406-451): returns the result dict and the (possibly mutated) state. -/
def _process_whack_attempt (game_state : GameState) (hole : ℤ) (current_time : ℚ) :
    WhackResult × GameState :=
  if game_state.active_mole = some hole then
    let game_state' :=
      { game_state with score := game_state.score + 1, active_mole := none }
    let reaction_time := current_time - game_state.mole_spawn_time
    let elapsed := current_time - game_state.game_start_time
    let remaining := max 0 ((game_state.game_duration : ℚ) - elapsed)
    ({ success := true
       hole := some hole
       score := some game_state'.score
       misses := some game_state'.misses
       reaction_time := some reaction_time
       time_remaining := some remaining }, game_state')
  else
    ({ success := false
       hole := some hole
       score := some game_state.score
       misses := some game_state.misses
       active_mole := some game_state.active_mole }, game_state)

/-- The per-session map `game_states` (app.py line 109). -/
def GameStates : Type := String → Option GameState

/-- `handle_whack(data)` (app.py lines 454-527).  `hole` is
`data.get("hole")` with `none` standing for an absent key or any value that
fails `isinstance(hole, int)`.  Returns the emitted `whack_result` payload and
the updated session map.  The checks appear in source order: session lookup,
hole validation, running flag, then `_process_whack_attempt`. -/
def handle_whack (game_states : GameStates) (session_id : String)
    (hole : Option ℤ) (current_time : ℚ) : WhackResult × GameStates :=
  match game_states session_id with
  | none => ({ success := false, error := some "Game not found" }, game_states)
  | some game_state =>
    match hole with
    | none => ({ success := false, error := some "Invalid hole number" }, game_states)
    | some h =>
      if h < 1 ∨ h > game_state.max_holes then
        ({ success := false, error := some "Invalid hole number" }, game_states)
      else if game_state.game_running = false then
        ({ success := false, error := some "Game not running" }, game_states)
      else
        let r := _process_whack_attempt game_state h current_time
        (r.1, fun k => if k = session_id then some r.2 else game_states k)

/-- `Difficulty(difficulty_str)` enum lookup: succeeds only on the three
member values, raising `ValueError` (here `none`) otherwise. -/
def difficultyFromValue : String → Option Difficulty
  | "easy" => some .easy
  | "medium" => some .medium
  | "hard" => some .hard
  | _ => none

/-- The `start_game` payload: `data` may be `None` and the `difficulty` key
may be absent (app.py line 357). -/
structure StartPayload where
  difficulty : Option String := none
deriving DecidableEq

/-- Difficulty resolution in `handle_start_game` (app.py lines 356-361):
`difficulty_str = (data or {}).get("difficulty", "medium")` followed by
`Difficulty(difficulty_str)` with `except ValueError: difficulty = MEDIUM`. -/
def resolveDifficulty (data : Option StartPayload) : Difficulty :=
  let difficulty_str :=
    (match data with
      | some d => d.difficulty
      | none => none).getD "medium"
  (difficultyFromValue difficulty_str).getD .medium

/-- The `game_started` payload emitted by `handle_start_game`
(app.py lines 395-403). -/
structure GameStartedEvent where
  duration : ℤ
  difficulty : String
  mole_timeout : ℚ
  message : String
deriving DecidableEq

/-- Uppercasing used in the start message (`difficulty.value.upper()`). -/
def Difficulty.upperValue : Difficulty → String
  | .easy => "EASY"
  | .medium => "MEDIUM"
  | .hard => "HARD"

/-- `handle_start_game(data=None)` (app.py lines 309-403), restricted to its
effect on `game_states` and the emitted `game_started` event: resolve the
difficulty, create and register a fresh `GameState` if none exists for the
session, `reset` it with the resolved difficulty, set `game_running = True`
and `game_start_time = now`, and emit the confirmation.  (Thread bookkeeping
is modelled separately in the interleaving model below.) -/
def handle_start_game (game_states : GameStates) (session_id : String)
    (data : Option StartPayload) (now : ℚ) : GameStates × GameStartedEvent :=
  let difficulty := resolveDifficulty data
  let game_state :=
    match game_states session_id with
    | some gs => gs
    | none => {}
  let game_state' :=
    { game_state.reset (some difficulty) with game_running := true, game_start_time := now }
  (fun k => if k = session_id then some game_state' else game_states k,
   { duration := game_state'.game_duration
     difficulty := difficulty.value
     mole_timeout := game_state'.mole_timeout
     message := "Game started on " ++ difficulty.upperValue ++ " mode!" })

/-! ## Interleaving model of one session

`MoleSpawnerThread.run` (app.py lines 128-166) and `GameTimerThread.run`
(lines 237-260) run concurrently with the socket handlers.  Each thread is
modelled by a program counter marking the points between which other code can
be scheduled; handler bodies and locked blocks run atomically.  A run of the
whole system is a list of `SysOp` micro-steps applied in order. -/

/-- Program counter of `MoleSpawnerThread.run`. -/
inductive SpawnerPC where
  /-- About to evaluate the `while` condition at line 134. -/
  | loopHead
  /-- Inside `_spawn_mole`: state updated under lock, lock released, the
  `mole_spawn` emission at line 178 still pending. -/
  | atSpawnEmit (hole : ℤ)
  /-- In the mole-timeout polling loop, lines 147-150. -/
  | waiting
  /-- The timeout wait has completed; about to take the lock for the miss
  check at line 153.  No cancellation check happens at this point. -/
  | atMissCheck
  /-- In the inter-spawn delay polling loop, lines 163-166. -/
  | delaying
  /-- The `run` method has returned. -/
  | exited
deriving DecidableEq

/-- Program counter of `GameTimerThread.run`. -/
inductive TimerPC where
  /-- About to evaluate the `while` condition at line 243. -/
  | tLoopHead
  /-- `remaining`/`elapsed` computed; the `time_update` emission at line 247
  still pending. -/
  | tAtEmit (remaining elapsed : ℚ)
  /-- In the ten-step 100ms sleep loop, lines 257-260 (checks only the stop
  event, not `game_running`). -/
  | tSleeping
  /-- The `run` method has returned. -/
  | tExited
deriving DecidableEq

/-- Events emitted to the session's socket, in chronological order. -/
inductive GameEvent where
  | game_started
  | mole_spawn (hole : ℤ)
  | mole_missed (hole : ℤ) (score misses : ℤ)
  | game_over (score misses : ℤ)
  | time_update (remaining elapsed : ℚ)
  | game_stopped (score misses : ℤ)
  | whack_result (r : WhackResult)
deriving DecidableEq

/-- State of one session together with its two background threads and the
trace of emitted events (oldest first). -/
structure SysState where
  gs : GameState := {}
  /-- `stop_event` of the current `MoleSpawnerThread`. -/
  spawner_stop : Bool := false
  /-- `stop_event` of the current `GameTimerThread`. -/
  timer_stop : Bool := false
  spawnerPC : SpawnerPC := .exited
  timerPC : TimerPC := .tExited
  events : List GameEvent := []
deriving DecidableEq

/-- Micro-steps of the system: handler invocations run atomically; each
thread suspension point is its own step. -/
inductive SysOp where
  /-- `handle_start_game` (app.py lines 309-403). -/
  | startGame (data : Option StartPayload) (now : ℚ)
  /-- `handle_stop_game` (app.py lines 530-545). -/
  | stopGame
  /-- `handle_disconnect` (app.py lines 292-306); it signals the threads and
  deletes the map entries but does not set `game_running` to false and emits
  nothing. -/
  | disconnect
  /-- `handle_whack` (app.py lines 454-527). -/
  | whackOp (hole : Option ℤ) (now : ℚ)
  /-- Evaluate the spawner `while` condition and, if the game continues,
  either end the round (lines 137-139) or spawn a mole under lock
  (lines 168-173); `hole` is the value of `random.randint(1, max_holes)`. -/
  | spLoopCheck (hole : ℤ) (now : ℚ)
  /-- Perform the pending `mole_spawn` emission (line 178, outside the lock). -/
  | spSpawnEmit
  /-- One 50ms cancellation check of the timeout wait observes
  `stop_event`/`game_running` and returns (lines 148-149). -/
  | spWaitPoll
  /-- The timeout wait runs to completion: every 50ms check during the wait
  passed (lines 147-150). -/
  | spWaitElapsed
  /-- The locked miss check (lines 152-158): if a mole is still active,
  increment `misses`, clear it and emit `mole_missed` (inside the lock). -/
  | spMissCheck
  /-- One cancellation check of the inter-spawn delay fires (lines 164-165). -/
  | spDelayPoll
  /-- The inter-spawn delay runs to completion (lines 163-166). -/
  | spDelayElapsed
  /-- Evaluate the timer `while` condition and compute
  `remaining`/`elapsed` (lines 243-245). -/
  | tmLoopCheck (now : ℚ)
  /-- Perform the pending `time_update` emission, then break or sleep
  (lines 247-254). -/
  | tmEmit
  /-- One 100ms check of the sleep loop observes `stop_event` and returns
  (lines 258-259). -/
  | tmSleepPoll
  /-- The one-second sleep completes without `stop_event` set (lines 257-260). -/
  | tmSleepDone
deriving DecidableEq

/-- Effect of a single micro-step on the system state. -/
def applyOp (op : SysOp) (s : SysState) : SysState :=
  match op with
  | .startGame data now =>
    let difficulty := resolveDifficulty data
    let gs' := { s.gs.reset (some difficulty) with game_running := true, game_start_time := now }
    { s with
      gs := gs'
      spawner_stop := false
      timer_stop := false
      spawnerPC := .loopHead
      timerPC := .tLoopHead
      events := s.events ++ [.game_started] }
  | .stopGame =>
    { s with
      gs := { s.gs with game_running := false }
      spawner_stop := true
      timer_stop := true
      events := s.events ++ [.game_stopped s.gs.score s.gs.misses] }
  | .disconnect =>
    { s with spawner_stop := true, timer_stop := true }
  | .whackOp hole now =>
    match hole with
    | none =>
      { s with events := s.events ++
          [.whack_result { success := false, error := some "Invalid hole number" }] }
    | some h =>
      if h < 1 ∨ h > s.gs.max_holes then
        { s with events := s.events ++
            [.whack_result { success := false, error := some "Invalid hole number" }] }
      else if s.gs.game_running = false then
        { s with events := s.events ++
            [.whack_result { success := false, error := some "Game not running" }] }
      else
        let r := _process_whack_attempt s.gs h now
        { s with gs := r.2, events := s.events ++ [.whack_result r.1] }
  | .spLoopCheck hole now =>
    if s.spawnerPC = .loopHead then
      if s.spawner_stop ∨ s.gs.game_running = false then
        { s with spawnerPC := .exited }
      else if (s.gs.game_duration : ℚ) ≤ now - s.gs.game_start_time then
        { s with
          gs := { s.gs with game_running := false, active_mole := none }
          spawnerPC := .exited
          events := s.events ++ [.game_over s.gs.score s.gs.misses] }
      else if 1 ≤ hole ∧ hole ≤ s.gs.max_holes then
        { s with
          gs := { s.gs with active_mole := some hole, mole_spawn_time := now }
          spawnerPC := .atSpawnEmit hole }
      else s
    else s
  | .spSpawnEmit =>
    match s.spawnerPC with
    | .atSpawnEmit h =>
      { s with spawnerPC := .waiting, events := s.events ++ [.mole_spawn h] }
    | _ => s
  | .spWaitPoll =>
    if s.spawnerPC = .waiting ∧ (s.spawner_stop ∨ s.gs.game_running = false) then
      { s with spawnerPC := .exited }
    else s
  | .spWaitElapsed =>
    if s.spawnerPC = .waiting ∧ ¬s.spawner_stop ∧ s.gs.game_running = true then
      { s with spawnerPC := .atMissCheck }
    else s
  | .spMissCheck =>
    if s.spawnerPC = .atMissCheck then
      match s.gs.active_mole with
      | some m =>
        { s with
          gs := { s.gs with misses := s.gs.misses + 1, active_mole := none }
          spawnerPC := .delaying
          events := s.events ++ [.mole_missed m s.gs.score (s.gs.misses + 1)] }
      | none => { s with spawnerPC := .delaying }
    else s
  | .spDelayPoll =>
    if s.spawnerPC = .delaying ∧ (s.spawner_stop ∨ s.gs.game_running = false) then
      { s with spawnerPC := .exited }
    else s
  | .spDelayElapsed =>
    if s.spawnerPC = .delaying ∧ ¬s.spawner_stop ∧ s.gs.game_running = true then
      { s with spawnerPC := .loopHead }
    else s
  | .tmLoopCheck now =>
    if s.timerPC = .tLoopHead then
      if s.timer_stop ∨ s.gs.game_running = false then
        { s with timerPC := .tExited }
      else
        let elapsed := now - s.gs.game_start_time
        { s with timerPC := .tAtEmit (max 0 ((s.gs.game_duration : ℚ) - elapsed)) elapsed }
    else s
  | .tmEmit =>
    match s.timerPC with
    | .tAtEmit remaining elapsed =>
      { s with
        timerPC := if remaining ≤ 0 then .tExited else .tSleeping
        events := s.events ++ [.time_update remaining elapsed] }
    | _ => s
  | .tmSleepPoll =>
    if s.timerPC = .tSleeping ∧ s.timer_stop then
      { s with timerPC := .tExited }
    else s
  | .tmSleepDone =>
    if s.timerPC = .tSleeping ∧ ¬s.timer_stop then
      { s with timerPC := .tLoopHead }
    else s

/-- Run a list of micro-steps from a given state. -/
def runFrom (s : SysState) (ops : List SysOp) : SysState :=
  ops.foldl (fun t op => applyOp op t) s

/-- Run a list of micro-steps from the post-connect initial state. -/
def runSys (ops : List SysOp) : SysState :=
  runFrom {} ops

/-- The invariant claimed in the spec: the active mole is non-null only
while the game is running. -/
def MoleInv (s : SysState) : Prop :=
  s.gs.active_mole ≠ none → s.gs.game_running = true

/-- Whether a system event is one of the loop emissions (spawn, miss, time). -/
def GameEvent.isLoopEvent : GameEvent → Bool
  | .mole_spawn _ => true
  | .mole_missed _ _ _ => true
  | .time_update _ _ => true
  | _ => false

/-- Number of loop events (spawn / miss / time) in a trace. -/
def loopEventCount (l : List GameEvent) : ℕ :=
  (l.filter GameEvent.isLoopEvent).length

/-- `true` when no spawn/miss/time event follows any `game_stopped` event. -/
def noLoopEventAfterStop : List GameEvent → Bool
  | [] => true
  | e :: rest =>
    match e with
    | .game_stopped _ _ => rest.all (fun x => !x.isLoopEvent) && noLoopEventAfterStop rest
    | _ => noLoopEventAfterStop rest

/-- Whether a micro-step is a `start_game` invocation. -/
def SysOp.isStart : SysOp → Bool
  | .startGame _ _ => true
  | _ => false

/-- Pending loop emissions of the spawner thread: one if it sits between its
locked spawn and the spawn emission, or at the miss check with a mole still
active. -/
def spawnerBudget (s : SysState) : ℕ :=
  match s.spawnerPC with
  | .atSpawnEmit _ => 1
  | .atMissCheck => if s.gs.active_mole = none then 0 else 1
  | _ => 0

/-- Pending loop emissions of the timer thread: one if it sits between its
while-condition check and the `time_update` emission. -/
def timerBudget (s : SysState) : ℕ :=
  match s.timerPC with
  | .tAtEmit _ _ => 1
  | _ => 0

/-! ## Lock/emission discipline

Each emitting code path of app.py is transcribed as the sequence of its lock
operations and socket emissions, so that "is this event emitted while
holding the session lock?" becomes a computation on the transcript. -/

/-- A lock acquisition, a lock release, or a socket emission. -/
inductive Action where
  | acquire
  | release
  | emitEvent (name : String)
deriving DecidableEq

/-- The emissions of a transcript paired with the lock depth at which each
one happens (starting from the given depth). -/
def emitsWithDepth : List Action → ℕ → List (String × ℕ)
  | [], _ => []
  | .acquire :: rest, d => emitsWithDepth rest (d + 1)
  | .release :: rest, d => emitsWithDepth rest (d - 1)
  | .emitEvent e :: rest, d => (e, d) :: emitsWithDepth rest d

/-- Every emission of the transcript happens with the lock free. -/
def emitsOutsideLock (path : List Action) : Prop :=
  ∀ p ∈ emitsWithDepth path 0, p.2 = 0

/-- `MoleSpawnerThread._spawn_mole` (app.py lines 168-186): mutate under
lock, release, then emit `mole_spawn`. -/
def spawnMolePath : List Action :=
  [.acquire, .release, .emitEvent "mole_spawn"]

/-- The spawner's timeout miss detection (app.py lines 152-158): the call to
`_emit_mole_missed` at line 158 is inside the `with game_state.lock:` block. -/
def missDetectionPath : List Action :=
  [.acquire, .emitEvent "mole_missed", .release]

/-- `MoleSpawnerThread._end_game` (app.py lines 204-218): mutate under lock,
release, then emit `game_over`. -/
def endGamePath : List Action :=
  [.acquire, .release, .emitEvent "game_over"]

/-- `handle_whack` main path (app.py lines 511-527): `_process_whack_attempt`
locks and releases, the handler emits `whack_result` afterwards. -/
def whackProcessPath : List Action :=
  [.acquire, .release, .emitEvent "whack_result"]

/-- `handle_whack` validation failures (app.py lines 499-509): emit without
touching the lock. -/
def whackErrorPath : List Action :=
  [.emitEvent "whack_result"]

/-- `handle_start_game` (app.py lines 309-403): `reset` locks and releases,
the handler emits `game_started` afterwards. -/
def startGamePath : List Action :=
  [.acquire, .release, .emitEvent "game_started"]

/-- `handle_stop_game` (app.py lines 530-545): emits `game_stopped`, no lock
use. -/
def stopGamePath : List Action :=
  [.emitEvent "game_stopped"]

/-- One `GameTimerThread.run` iteration (app.py lines 243-251): emits
`time_update`, no lock use. -/
def timerTickPath : List Action :=
  [.emitEvent "time_update"]

/-- `handle_connect` (app.py lines 283-289). -/
def connectPath : List Action :=
  [.emitEvent "connected"]

/-- `handle_get_high_scores` (app.py lines 548-551). -/
def getHighScoresPath : List Action :=
  [.emitEvent "high_scores_update"]

/-- `handle_submit_score` (app.py lines 554-575). -/
def submitScorePath : List Action :=
  [.emitEvent "high_scores_update"]

/-- Every emitting code path of app.py. -/
def allEmissionPaths : List (List Action) :=
  [spawnMolePath, missDetectionPath, endGamePath, whackProcessPath,
   whackErrorPath, startGamePath, stopGamePath, timerTickPath, connectPath,
   getHighScoresPath, submitScorePath]

/-! ## High scores -/

/-- One entry of the global `high_scores` list (app.py lines 111-113). -/
structure ScoreEntry where
  name : String
  score : ℤ
  difficulty : String
  date : String
deriving DecidableEq

/-- The `submit_score` payload; each key may be absent (app.py lines
557-559 use `.get` with defaults). -/
structure ScoreSubmission where
  name : Option String := none
  score : Option ℤ := none
  difficulty : Option String := none
deriving DecidableEq

/-- Python's character slice `s[:n]`. -/
def strTake (s : String) (n : ℕ) : String :=
  ⟨s.data.take n⟩

/-- The `new_entry` dict built by `handle_submit_score` (app.py lines
562-567); `date` is the formatted current date. -/
def mkEntry (data : ScoreSubmission) (date : String) : ScoreEntry :=
  { name := strTake (data.name.getD "Anonymous") 10
    score := data.score.getD 0
    difficulty := data.difficulty.getD "medium"
    date := date }

/-- The comparison realising `sort(key=lambda x: x["score"], reverse=True)`:
stable sort placing larger scores first. -/
def scoreDescBool (a b : ScoreEntry) : Bool :=
  decide (b.score ≤ a.score)

/-- `handle_submit_score` (app.py lines 554-575): append the new entry, sort
descending by score, keep the top 10 (`del high_scores[10:]`). -/
def handle_submit_score (high_scores : List ScoreEntry) (data : ScoreSubmission)
    (date : String) : List ScoreEntry :=
  ((high_scores ++ [mkEntry data date]).mergeSort scoreDescBool).take 10

/-- The `high_scores` list after a sequence of submissions, starting empty. -/
def runSubmissions (subs : List (ScoreSubmission × String)) : List ScoreEntry :=
  subs.foldl (fun hs sd => handle_submit_score hs sd.1 sd.2) []

/-- Descending sort of plain scores, used to state what "the 10 highest
scores" means. -/
def sortIntDesc (l : List ℤ) : List ℤ :=
  l.mergeSort (fun a b => decide (b ≤ a))

/-- Ordered insertion into a descending list. -/
def insertDesc (x : ℤ) : List ℤ → List ℤ
  | [] => [x]
  | t :: ts => if x ≤ t then t :: insertDesc x ts else x :: t :: ts

/-! ## Theorems -/

/-- Claim C8: for every prior `GameState` and any optional new difficulty,
`reset` zeroes score, misses, the active mole and the spawn timestamp and
clears the running flag; the difficulty is overwritten exactly when a new
difficulty argument is supplied and is unchanged otherwise. -/
theorem reset_zeroes_state (gs : GameState) (d : Option Difficulty) :
    (gs.reset d).score = 0 ∧ (gs.reset d).misses = 0 ∧
    (gs.reset d).active_mole = none ∧ (gs.reset d).mole_spawn_time = 0 ∧
    (gs.reset d).game_running = false ∧
    (∀ nd : Difficulty, (gs.reset (some nd)).difficulty = nd) ∧
    (gs.reset none).difficulty = gs.difficulty := by
  exact ⟨rfl, rfl, rfl, rfl, rfl, fun nd => rfl, rfl⟩

/-- Claim C7: the difficulty resolved by `handle_start_game` is the tier
named by the payload's difficulty string when it is one of "easy", "medium",
"hard", and is MEDIUM for every other string, for a missing field and for a
missing payload; resolution never fails, and the emitted `game_started`
event carries the resolved tier. -/
theorem start_difficulty_resolution :
    resolveDifficulty (some { difficulty := some "easy" }) = .easy ∧
    resolveDifficulty (some { difficulty := some "medium" }) = .medium ∧
    resolveDifficulty (some { difficulty := some "hard" }) = .hard ∧
    (∀ s : String, s ≠ "easy" → s ≠ "medium" → s ≠ "hard" →
      resolveDifficulty (some { difficulty := some s }) = .medium) ∧
    resolveDifficulty (some { difficulty := none }) = .medium ∧
    resolveDifficulty none = .medium ∧
    (∀ (m : GameStates) (sid : String) (data : Option StartPayload) (now : ℚ),
      (handle_start_game m sid data now).2.difficulty = (resolveDifficulty data).value) := by
  refine ⟨rfl, rfl, rfl, ?_, rfl, rfl, fun m sid data now => rfl⟩
  intro s h1 h2 h3
  have hv : difficultyFromValue s = none := by
    unfold difficultyFromValue
    split <;> simp_all
  simp [resolveDifficulty, hv]

/-- Witness for the unknown-string branch of the difficulty resolution. -/
theorem start_difficulty_resolution_witness :
    resolveDifficulty (some { difficulty := some "EXTREME" }) = .medium :=
  start_difficulty_resolution.2.2.2.1 "EXTREME" (by decide) (by decide) (by decide)

/-- Claim C10: if `start_game` arrives for a session with no `GameState`
entry, the handler creates and registers a fresh state and proceeds with the
normal start sequence: reset with the resolved difficulty, `game_running`
set, `game_start_time = now`, other sessions untouched, and the usual
`game_started` confirmation emitted. -/
theorem start_game_creates_session (m : GameStates) (sid : String)
    (data : Option StartPayload) (now : ℚ) (hm : m sid = none) :
    ∃ gs', (handle_start_game m sid data now).1 sid = some gs' ∧
      gs'.score = 0 ∧ gs'.misses = 0 ∧ gs'.active_mole = none ∧
      gs'.mole_spawn_time = 0 ∧ gs'.difficulty = resolveDifficulty data ∧
      gs'.game_running = true ∧ gs'.game_start_time = now ∧ gs'.max_holes = 6 ∧
      (∀ k, k ≠ sid → (handle_start_game m sid data now).1 k = m k) ∧
      (handle_start_game m sid data now).2 =
        { duration := gs'.game_duration
          difficulty := (resolveDifficulty data).value
          mole_timeout := gs'.mole_timeout
          message := "Game started on " ++ (resolveDifficulty data).upperValue ++ " mode!" } := by
  refine ⟨{ ({} : GameState).reset (some (resolveDifficulty data)) with
      game_running := true, game_start_time := now }, ?_, rfl, rfl, rfl, rfl, rfl, rfl,
    rfl, rfl, ?_, ?_⟩
  · simp [handle_start_game, hm]
  · intro k hk
    simp [handle_start_game, hk]
  · simp [handle_start_game, hm]

/-- Witness for claim C10 at a concrete empty session map. -/
theorem start_game_creates_session_witness :
    ∃ gs', (handle_start_game (fun _ => none) "s" none 0).1 "s" = some gs' ∧
      gs'.score = 0 ∧ gs'.misses = 0 ∧ gs'.active_mole = none ∧
      gs'.mole_spawn_time = 0 ∧ gs'.difficulty = resolveDifficulty none ∧
      gs'.game_running = true ∧ gs'.game_start_time = 0 ∧ gs'.max_holes = 6 ∧
      (∀ k, k ≠ "s" → (handle_start_game (fun _ => none) "s" none 0).1 k = none) ∧
      (handle_start_game (fun _ => none) "s" none 0).2 =
        { duration := gs'.game_duration
          difficulty := (resolveDifficulty none).value
          mole_timeout := gs'.mole_timeout
          message := "Game started on " ++ (resolveDifficulty none).upperValue ++ " mode!" } :=
  start_game_creates_session (fun _ => none) "s" none 0 rfl

/-- Claim C5: a whack on an existing running session whose valid hole equals
the active mole increments the score by one, clears the active mole, and
returns success with `reaction_time = now - mole_spawn_time` (hence at least
any delay between spawn and action), the updated score, the current misses
and the remaining time. -/
theorem whack_hit_scores (m : GameStates) (sid : String) (gs : GameState)
    (h : ℤ) (now δ : ℚ) (hm : m sid = some gs) (hrun : gs.game_running = true)
    (h1 : 1 ≤ h) (h2 : h ≤ gs.max_holes) (hactive : gs.active_mole = some h) :
    (handle_whack m sid (some h) now).1.success = true ∧
    (handle_whack m sid (some h) now).1.error = none ∧
    (handle_whack m sid (some h) now).1.hole = some h ∧
    (handle_whack m sid (some h) now).1.score = some (gs.score + 1) ∧
    (handle_whack m sid (some h) now).1.misses = some gs.misses ∧
    (handle_whack m sid (some h) now).1.reaction_time = some (now - gs.mole_spawn_time) ∧
    (handle_whack m sid (some h) now).1.time_remaining
      = some (max 0 ((gs.game_duration : ℚ) - (now - gs.game_start_time))) ∧
    (handle_whack m sid (some h) now).2 sid
      = some { gs with score := gs.score + 1, active_mole := none } ∧
    (gs.mole_spawn_time + δ ≤ now → δ ≤ now - gs.mole_spawn_time) := by
  have hcond : ¬(h < 1 ∨ h > gs.max_holes) := by omega
  simp only [handle_whack, hm, hcond, if_false, hrun, _process_whack_attempt, hactive,
    if_true, reduceIte]
  refine ⟨rfl, rfl, rfl, rfl, rfl, rfl, rfl, ?_, ?_⟩
  · simp
  · intro hd
    linarith

/-- A session state with an active mole in hole 3, used as witness input. -/
def gsHit : GameState :=
  { game_running := true, active_mole := some 3 }

/-- Witness for claim C5 at a concrete running session. -/
theorem whack_hit_scores_witness :
    (handle_whack (fun _ => some gsHit) "s" (some 3) 2).1.success = true ∧
    (handle_whack (fun _ => some gsHit) "s" (some 3) 2).1.error = none ∧
    (handle_whack (fun _ => some gsHit) "s" (some 3) 2).1.hole = some 3 ∧
    (handle_whack (fun _ => some gsHit) "s" (some 3) 2).1.score = some (gsHit.score + 1) ∧
    (handle_whack (fun _ => some gsHit) "s" (some 3) 2).1.misses = some gsHit.misses ∧
    (handle_whack (fun _ => some gsHit) "s" (some 3) 2).1.reaction_time
      = some (2 - gsHit.mole_spawn_time) ∧
    (handle_whack (fun _ => some gsHit) "s" (some 3) 2).1.time_remaining
      = some (max 0 ((gsHit.game_duration : ℚ) - (2 - gsHit.game_start_time))) ∧
    (handle_whack (fun _ => some gsHit) "s" (some 3) 2).2 "s"
      = some { gsHit with score := gsHit.score + 1, active_mole := none } ∧
    (gsHit.mole_spawn_time + 2 ≤ 2 → (2 : ℚ) ≤ 2 - gsHit.mole_spawn_time) :=
  whack_hit_scores (fun _ => some gsHit) "s" gsHit 3 2 2 rfl rfl (by decide) (by decide) rfl

/-- Claim C6: a whack on an existing running session with a valid hole that
differs from the active mole (including no active mole) mutates nothing —
the session map is returned unchanged — and returns failure carrying the
current active mole, score and misses. -/
theorem whack_miss_no_mutation (m : GameStates) (sid : String) (gs : GameState)
    (h : ℤ) (now : ℚ) (hm : m sid = some gs) (hrun : gs.game_running = true)
    (h1 : 1 ≤ h) (h2 : h ≤ gs.max_holes) (hactive : gs.active_mole ≠ some h) :
    (handle_whack m sid (some h) now).1.success = false ∧
    (handle_whack m sid (some h) now).1.error = none ∧
    (handle_whack m sid (some h) now).1.hole = some h ∧
    (handle_whack m sid (some h) now).1.score = some gs.score ∧
    (handle_whack m sid (some h) now).1.misses = some gs.misses ∧
    (handle_whack m sid (some h) now).1.active_mole = some gs.active_mole ∧
    (handle_whack m sid (some h) now).2 = m := by
  have hcond : ¬(h < 1 ∨ h > gs.max_holes) := by omega
  simp only [handle_whack, hm, hcond, if_false, hrun, _process_whack_attempt, hactive,
    reduceIte]
  refine ⟨rfl, rfl, rfl, rfl, rfl, rfl, ?_⟩
  funext k
  by_cases hk : k = sid
  · subst hk
    simp [hm]
  · simp [hk]

/-- A running session state with no active mole, used as witness input. -/
def gsMiss : GameState :=
  { game_running := true }

/-- Witness for claim C6 at a concrete running session with no active mole. -/
theorem whack_miss_no_mutation_witness :
    (handle_whack (fun _ => some gsMiss) "s" (some 2) 0).1.success = false ∧
    (handle_whack (fun _ => some gsMiss) "s" (some 2) 0).1.error = none ∧
    (handle_whack (fun _ => some gsMiss) "s" (some 2) 0).1.hole = some 2 ∧
    (handle_whack (fun _ => some gsMiss) "s" (some 2) 0).1.score = some gsMiss.score ∧
    (handle_whack (fun _ => some gsMiss) "s" (some 2) 0).1.misses = some gsMiss.misses ∧
    (handle_whack (fun _ => some gsMiss) "s" (some 2) 0).1.active_mole
      = some gsMiss.active_mole ∧
    (handle_whack (fun _ => some gsMiss) "s" (some 2) 0).2 = fun _ => some gsMiss :=
  whack_miss_no_mutation (fun _ => some gsMiss) "s" gsMiss 2 0 rfl rfl (by decide)
    (by decide) (by decide)

/-- Counterexample to claim C1 as stated: when no `SessionState` exists, an
out-of-range hole is answered with "Game not found", not "Invalid hole
number" — the session-existence check precedes hole validation. -/
theorem whack_invalid_hole_counterexample :
    (handle_whack (fun _ => none) "s" (some 99) 0).1.success = false ∧
    (handle_whack (fun _ => none) "s" (some 99) 0).1.error = some "Game not found" ∧
    (handle_whack (fun _ => none) "s" (some 99) 0).1.error ≠ some "Invalid hole number" := by
  exact ⟨rfl, rfl, by decide⟩

/-- Claim C1 (amended): for every whack request on a session that has a
`SessionState`, a payload hole that is not an integer or lies outside
`[1, maxHoles]` is answered with `success = false` and
`error = "Invalid hole number"` and leaves the session map (hence score and
misses) unchanged, regardless of whether the game is running. -/
theorem whack_invalid_hole_with_session (m : GameStates) (sid : String)
    (gs : GameState) (hole : Option ℤ) (now : ℚ) (hm : m sid = some gs)
    (hinv : hole = none ∨ ∃ h, hole = some h ∧ (h < 1 ∨ h > gs.max_holes)) :
    (handle_whack m sid hole now).1.success = false ∧
    (handle_whack m sid hole now).1.error = some "Invalid hole number" ∧
    (handle_whack m sid hole now).2 = m := by
  rcases hinv with hnone | ⟨h, hh, hrange⟩
  · subst hnone
    simp [handle_whack, hm]
  · subst hh
    simp [handle_whack, hm, hrange]

/-- Witness for claim C1 (amended): a non-integer hole on a fresh session. -/
theorem whack_invalid_hole_with_session_witness :
    (handle_whack (fun _ => some {}) "s" none 0).1.success = false ∧
    (handle_whack (fun _ => some {}) "s" none 0).1.error = some "Invalid hole number" ∧
    (handle_whack (fun _ => some {}) "s" none 0).2 = fun _ => some {} :=
  whack_invalid_hole_with_session (fun _ => some {}) "s" {} none 0 rfl (Or.inl rfl)

/-- Counterexample to claim C2 as stated: `handle_stop_game` clears
`game_running` but not `active_mole`, so after start, a spawn and a stop the
state has a non-null active mole while not running. -/
theorem active_mole_invariant_counterexample :
    ¬ ∀ ops : List SysOp, MoleInv (runSys ops) := by
  intro hAll
  have h := hAll [.startGame none 0, .spLoopCheck 3 0, .stopGame]
  have h1 : (runSys [.startGame none 0, .spLoopCheck 3 0, .stopGame]).gs.active_mole
      = some 3 := by
    norm_num [runSys, runFrom, applyOp, GameState.reset, resolveDifficulty,
      difficultyFromValue, GameState.game_duration, GameState.settings, DIFFICULTY_SETTINGS]
  have h2 : (runSys [.startGame none 0, .spLoopCheck 3 0, .stopGame]).gs.game_running
      = false := by
    norm_num [runSys, runFrom, applyOp, GameState.reset, resolveDifficulty,
      difficultyFromValue, GameState.game_duration, GameState.settings, DIFFICULTY_SETTINGS]
  have := h (by simp [h1])
  rw [h2] at this
  exact Bool.false_ne_true this

/-- Any single step other than `stopGame` preserves the mole/running
invariant. -/
theorem moleInv_preserved (s : SysState) (op : SysOp) (hinv : MoleInv s)
    (hop : op ≠ .stopGame) : MoleInv (applyOp op s) := by
  cases op with
  | startGame data now => intro _; rfl
  | stopGame => exact absurd rfl hop
  | disconnect => exact hinv
  | whackOp hole now =>
    cases hole with
    | none => exact hinv
    | some h =>
      simp only [applyOp]
      split
      · exact hinv
      · split
        · exact hinv
        · rename_i hrun
          intro _
          show (_process_whack_attempt s.gs h now).2.game_running = true
          have hr : s.gs.game_running = true := by
            cases hb : s.gs.game_running
            · exact absurd hb hrun
            · rfl
          simp only [_process_whack_attempt]
          split <;> exact hr
  | spLoopCheck hole now =>
    simp only [applyOp]
    split
    · split
      · exact hinv
      · split
        · exact fun hmole => absurd rfl hmole
        · split
          · rename_i hcont _ _
            intro _
            show s.gs.game_running = true
            simp only [not_or] at hcont
            cases hb : s.gs.game_running
            · exact absurd hb hcont.2
            · rfl
          · exact hinv
    · exact hinv
  | spSpawnEmit =>
    simp only [applyOp]
    split <;> exact hinv
  | spWaitPoll =>
    simp only [applyOp]
    split <;> exact hinv
  | spWaitElapsed =>
    simp only [applyOp]
    split <;> exact hinv
  | spMissCheck =>
    simp only [applyOp]
    split
    · split
      · intro hmole
        simp at hmole
      · exact hinv
    · exact hinv
  | spDelayPoll =>
    simp only [applyOp]
    split <;> exact hinv
  | spDelayElapsed =>
    simp only [applyOp]
    split <;> exact hinv
  | tmLoopCheck now =>
    simp only [applyOp]
    split
    · split <;> exact hinv
    · exact hinv
  | tmEmit =>
    simp only [applyOp]
    split <;> exact hinv
  | tmSleepPoll =>
    simp only [applyOp]
    split <;> exact hinv
  | tmSleepDone =>
    simp only [applyOp]
    split <;> exact hinv

/-- The invariant holds along any stop-free run from an invariant state. -/
theorem moleInv_runFrom (ops : List SysOp) (s : SysState) (hinv : MoleInv s)
    (hstop : SysOp.stopGame ∉ ops) : MoleInv (runFrom s ops) := by
  induction ops generalizing s with
  | nil => exact hinv
  | cons op rest ih =>
    have hop : op ≠ .stopGame := fun hc => hstop (hc ▸ List.mem_cons_self op rest)
    exact ih (applyOp op s) (moleInv_preserved s op hinv hop)
      (fun hc => hstop (List.mem_cons_of_mem op hc))

/-- Claim C2 (amended): in every state reachable from the post-connect state
by any sequence of start, whack, spawner-loop and timer-loop steps, round
end and disconnect — that is, any sequence not containing `stop_game` — the
active mole is non-null only while the game is running.  (`handle_stop_game`
breaks the invariant because it clears `game_running` without clearing
`active_mole`.) -/
theorem active_mole_invariant_no_stop (ops : List SysOp)
    (hstop : SysOp.stopGame ∉ ops) : MoleInv (runSys ops) :=
  moleInv_runFrom ops {} (fun hc => absurd rfl hc) hstop

/-- Witness for claim C2 (amended) on a concrete stop-free run. -/
theorem active_mole_invariant_no_stop_witness :
    MoleInv (runSys [.startGame none 0, .spLoopCheck 3 0, .spSpawnEmit,
      .spWaitElapsed, .spMissCheck, .disconnect]) :=
  active_mole_invariant_no_stop
    [.startGame none 0, .spLoopCheck 3 0, .spSpawnEmit, .spWaitElapsed,
      .spMissCheck, .disconnect] (by decide)

instance (path : List Action) : Decidable (emitsOutsideLock path) :=
  inferInstanceAs (Decidable (∀ p ∈ emitsWithDepth path 0, p.2 = 0))

/-- Counterexample to claim C4 as stated: the spawner's timeout miss path
calls `_emit_mole_missed` at app.py line 158 inside the
`with game_state.lock:` block, so `mole_missed` is emitted at lock depth 1. -/
theorem emit_outside_lock_counterexample :
    ¬ ∀ p ∈ allEmissionPaths, emitsOutsideLock p := by
  intro hAll
  exact absurd (hAll missDetectionPath (by decide) ("mole_missed", 1) (by decide))
    (by decide)

/-- Claim C4 (amended): every emission of the system happens outside the
session lock except the spawner's `mole_missed`, which is emitted while
holding the lock, inside the critical section that increments `misses` and
clears the active mole. -/
theorem emissions_outside_lock_except_miss :
    (∀ p ∈ allEmissionPaths, p ≠ missDetectionPath → emitsOutsideLock p) ∧
    emitsWithDepth missDetectionPath 0 = [("mole_missed", 1)] := by
  constructor
  · decide
  · decide

theorem loopEventCount_append (l t : List GameEvent) :
    loopEventCount (l ++ t) = loopEventCount l + loopEventCount t := by
  simp [loopEventCount, List.filter_append]

/-- Counterexample to claim C3 as stated: `handle_stop_game` only sets the
stop events and does not join the threads; a spawner that has already
completed its timeout wait still runs its miss check afterwards, so a
`mole_missed` event is emitted after `game_stopped`. -/
theorem stop_blocks_loops_counterexample :
    ¬ ∀ ops : List SysOp, noLoopEventAfterStop (runSys ops).events = true := by
  intro hAll
  have h := hAll [.startGame none 0, .spLoopCheck 3 0, .spSpawnEmit, .spWaitElapsed,
    .stopGame, .spMissCheck]
  have he : (runSys [.startGame none 0, .spLoopCheck 3 0, .spSpawnEmit, .spWaitElapsed,
      .stopGame, .spMissCheck]).events
      = [.game_started, .mole_spawn 3, .game_stopped 0 0, .mole_missed 3 0 1] := by
    norm_num [runSys, runFrom, applyOp, GameState.reset, resolveDifficulty,
      difficultyFromValue, GameState.game_duration, GameState.settings, DIFFICULTY_SETTINGS]
  rw [he] at h
  exact absurd h (by decide)

/-- Every step leaves the already-emitted event trace as a prefix. -/
theorem loopEventCount_mono (op : SysOp) (s : SysState) :
    loopEventCount s.events ≤ loopEventCount (applyOp op s).events := by
  cases op <;> simp only [applyOp] <;> (repeat' split) <;>
    (try simp only [loopEventCount_append]) <;> omega

/-- No step other than `start_game` clears a set stop event. -/
theorem stop_flags_preserved (s : SysState) (op : SysOp) (hs : s.spawner_stop = true)
    (ht : s.timer_stop = true) (hop : op.isStart = false) :
    (applyOp op s).spawner_stop = true ∧ (applyOp op s).timer_stop = true := by
  cases op <;> simp only [applyOp] <;> (repeat' split) <;>
    first
      | exact ⟨hs, ht⟩
      | exact ⟨rfl, rfl⟩
      | simp_all [SysOp.isStart]

/-- One step with both stop events set: the number of loop events plus the
pending-emission budget does not grow. -/
theorem stop_step_bound (s : SysState) (op : SysOp) (hs : s.spawner_stop = true)
    (ht : s.timer_stop = true) (hop : op.isStart = false) :
    loopEventCount (applyOp op s).events + spawnerBudget (applyOp op s)
        + timerBudget (applyOp op s)
      ≤ loopEventCount s.events + spawnerBudget s + timerBudget s := by
  cases op with
  | startGame data now => simp [SysOp.isStart] at hop
  | stopGame =>
    simp [applyOp, spawnerBudget, timerBudget, loopEventCount_append, loopEventCount,
      GameEvent.isLoopEvent]
  | disconnect =>
    exact le_refl _
  | whackOp hole now =>
    cases hole with
    | none =>
      simp [applyOp, spawnerBudget, timerBudget, loopEventCount_append, loopEventCount,
        GameEvent.isLoopEvent]
    | some h =>
      have hpct : (applyOp (.whackOp (some h) now) s).timerPC = s.timerPC := by
        simp only [applyOp]
        (repeat' split) <;> rfl
      have hpcs : (applyOp (.whackOp (some h) now) s).spawnerPC = s.spawnerPC := by
        simp only [applyOp]
        (repeat' split) <;> rfl
      have htb : timerBudget (applyOp (.whackOp (some h) now) s) = timerBudget s := by
        unfold timerBudget
        rw [hpct]
      have hcount : loopEventCount (applyOp (.whackOp (some h) now) s).events
          = loopEventCount s.events := by
        simp only [applyOp]
        (repeat' split) <;>
          simp [loopEventCount_append, loopEventCount, GameEvent.isLoopEvent]
      have hsb : spawnerBudget (applyOp (.whackOp (some h) now) s) ≤ spawnerBudget s := by
        unfold spawnerBudget
        rw [hpcs]
        cases s.spawnerPC
        case atMissCheck =>
          simp only [applyOp, _process_whack_attempt]
          (repeat' split) <;>
            first
              | exact le_refl _
              | exact Nat.zero_le _
              | simp_all
        all_goals exact le_refl _
      omega
  | spLoopCheck hole now =>
    simp only [applyOp, hs, true_or, if_true, reduceIte]
    split
    · simp [spawnerBudget, timerBudget]
    · exact le_refl _
  | spSpawnEmit =>
    cases hpc : s.spawnerPC <;>
      simp [applyOp, hpc, spawnerBudget, timerBudget, loopEventCount_append,
        loopEventCount, GameEvent.isLoopEvent]
  | spWaitPoll =>
    simp only [applyOp]
    split
    · rename_i hcond
      simp [spawnerBudget, timerBudget, hcond.1]
    · exact le_refl _
  | spWaitElapsed =>
    simp only [applyOp]
    split
    · rename_i hcond
      exact absurd hs hcond.2.1
    · exact le_refl _
  | spMissCheck =>
    simp only [applyOp]
    split
    · rename_i hpc
      cases hact : s.gs.active_mole with
      | none =>
        simp [hact, spawnerBudget, timerBudget, hpc]
      | some m =>
        simp [hact, spawnerBudget, timerBudget, hpc, loopEventCount_append,
          loopEventCount, GameEvent.isLoopEvent]
    · exact le_refl _
  | spDelayPoll =>
    simp only [applyOp]
    split
    · rename_i hcond
      simp [spawnerBudget, timerBudget, hcond.1]
    · exact le_refl _
  | spDelayElapsed =>
    simp only [applyOp]
    split
    · rename_i hcond
      exact absurd hs hcond.2.1
    · exact le_refl _
  | tmLoopCheck now =>
    simp only [applyOp, ht, true_or, if_true, reduceIte]
    split
    · simp [spawnerBudget, timerBudget]
    · exact le_refl _
  | tmEmit =>
    cases hpc : s.timerPC <;> simp only [applyOp, hpc] <;> (repeat' split) <;>
      simp [spawnerBudget, timerBudget, hpc, loopEventCount_append, loopEventCount,
        GameEvent.isLoopEvent] <;> omega
  | tmSleepPoll =>
    simp only [applyOp]
    split
    · rename_i hcond
      simp [spawnerBudget, timerBudget, hcond.1]
    · exact le_refl _
  | tmSleepDone =>
    simp only [applyOp]
    split
    · rename_i hcond
      exact absurd ht hcond.2
    · exact le_refl _

/-- Along any start-free run from a state with both stop events set, the
stop events stay set and loop events plus pending budget do not grow. -/
theorem stop_run_bound (post : List SysOp) (s : SysState) (hs : s.spawner_stop = true)
    (ht : s.timer_stop = true) (hpost : ∀ op ∈ post, op.isStart = false) :
    (runFrom s post).spawner_stop = true ∧ (runFrom s post).timer_stop = true ∧
    loopEventCount (runFrom s post).events + spawnerBudget (runFrom s post)
        + timerBudget (runFrom s post)
      ≤ loopEventCount s.events + spawnerBudget s + timerBudget s := by
  induction post generalizing s with
  | nil => exact ⟨hs, ht, le_refl _⟩
  | cons op rest ih =>
    have hop : op.isStart = false := hpost op (List.mem_cons_self op rest)
    have hflags := stop_flags_preserved s op hs ht hop
    have hstep := stop_step_bound s op hs ht hop
    have hrest := ih (applyOp op s) hflags.1 hflags.2
      (fun o ho => hpost o (List.mem_cons_of_mem op ho))
    exact ⟨hrest.1, hrest.2.1, le_trans hrest.2.2 hstep⟩

/-- The loop-event count never decreases along a run. -/
theorem loopEventCount_runFrom_mono (post : List SysOp) (s : SysState) :
    loopEventCount s.events ≤ loopEventCount (runFrom s post).events := by
  induction post generalizing s with
  | nil => exact le_refl _
  | cons op rest ih =>
    exact le_trans (loopEventCount_mono op s) (ih (applyOp op s))

/-- Claim C3 (amended): `handle_stop_game` and `handle_disconnect` only
signal the loops (set their stop events; stop also clears `game_running`)
and do not wait for them to exit.  Once both stop events are set, however
the run continues (absent a new `start_game`), at most
`spawnerBudget + timerBudget ≤ 2` further spawn/miss/time events are
emitted — one already-pending emission per loop — and if both loops have
already exited, none at all. -/
theorem stop_signal_event_bound (s : SysState) (post : List SysOp)
    (hs : s.spawner_stop = true) (ht : s.timer_stop = true)
    (hpost : ∀ op ∈ post, op.isStart = false) :
    loopEventCount (runFrom s post).events
      ≤ loopEventCount s.events + spawnerBudget s + timerBudget s ∧
    spawnerBudget s + timerBudget s ≤ 2 ∧
    (s.spawnerPC = .exited → s.timerPC = .tExited →
      loopEventCount (runFrom s post).events = loopEventCount s.events) := by
  have hrun := stop_run_bound post s hs ht hpost
  refine ⟨?_, ?_, ?_⟩
  · have hle := hrun.2.2
    omega
  · have h1 : spawnerBudget s ≤ 1 := by
      unfold spawnerBudget
      split <;> first | omega | (split <;> omega)
    have h2 : timerBudget s ≤ 1 := by
      unfold timerBudget
      split <;> omega
    omega
  · intro hsp htp
    have hb1 : spawnerBudget s = 0 := by rw [spawnerBudget, hsp]
    have hb2 : timerBudget s = 0 := by rw [timerBudget, htp]
    have hle := hrun.2.2
    rw [hb1, hb2] at hle
    have hge := loopEventCount_runFrom_mono post s
    omega

/-- A session just after `stop_game`: both stop events set, the spawner
between its timeout wait and its miss check, the timer between its check
and its pending emission. -/
def sStopped : SysState :=
  { gs := { active_mole := some 3, misses := 0, game_running := false }
    spawner_stop := true
    timer_stop := true
    spawnerPC := .atMissCheck
    timerPC := .tAtEmit 50 10
    events := [.game_started, .mole_spawn 3, .game_stopped 0 0] }

/-- Witness for claim C3 (amended) on a concrete post-stop state and run. -/
theorem stop_signal_event_bound_witness :
    loopEventCount (runFrom sStopped [.spMissCheck, .tmEmit, .spDelayPoll,
        .tmSleepPoll]).events
      ≤ loopEventCount sStopped.events + spawnerBudget sStopped + timerBudget sStopped ∧
    spawnerBudget sStopped + timerBudget sStopped ≤ 2 ∧
    (sStopped.spawnerPC = .exited → sStopped.timerPC = .tExited →
      loopEventCount (runFrom sStopped [.spMissCheck, .tmEmit, .spDelayPoll,
        .tmSleepPoll]).events = loopEventCount sStopped.events) :=
  stop_signal_event_bound sStopped [.spMissCheck, .tmEmit, .spDelayPoll, .tmSleepPoll]
    rfl rfl (by decide)

/-- The plain score submitted by one `submit_score` request. -/
def subScore (sd : ScoreSubmission × String) : ℤ :=
  sd.1.score.getD 0

theorem sortIntDesc_perm (l : List ℤ) : List.Perm (sortIntDesc l) l :=
  List.mergeSort_perm l _

theorem sortIntDesc_sorted (l : List ℤ) :
    List.Pairwise (α := ℤ) (· ≥ ·) (sortIntDesc l) := by
  have h := @List.sorted_mergeSort ℤ (fun a b : ℤ => decide (b ≤ a))
    (fun a b c hab hbc => by
      simp only [decide_eq_true_eq] at hab hbc ⊢
      omega)
    (fun a b => by
      simp only [Bool.or_eq_true, decide_eq_true_eq]
      omega) l
  exact h.imp (fun hab => by simpa using hab)

theorem sortIntDesc_congr_perm {l₁ l₂ : List ℤ} (h : List.Perm l₁ l₂) :
    sortIntDesc l₁ = sortIntDesc l₂ :=
  List.eq_of_perm_of_sorted
    ((sortIntDesc_perm l₁).trans (h.trans (sortIntDesc_perm l₂).symm))
    (sortIntDesc_sorted l₁) (sortIntDesc_sorted l₂)

theorem insertDesc_perm (x : ℤ) (l : List ℤ) : List.Perm (insertDesc x l) (x :: l) := by
  induction l with
  | nil => exact List.Perm.refl _
  | cons t ts ih =>
    simp only [insertDesc]
    split
    · exact (ih.cons t).trans (List.Perm.swap x t ts)
    · exact List.Perm.refl _

theorem insertDesc_sorted (x : ℤ) {l : List ℤ}
    (h : List.Pairwise (α := ℤ) (· ≥ ·) l) :
    List.Pairwise (α := ℤ) (· ≥ ·) (insertDesc x l) := by
  induction l with
  | nil => simp [insertDesc]
  | cons t ts ih =>
    rcases List.pairwise_cons.mp h with ⟨ht, hts⟩
    simp only [insertDesc]
    split
    · rename_i hxt
      refine List.pairwise_cons.mpr ⟨?_, ih hts⟩
      intro b hb
      rcases List.mem_cons.mp ((insertDesc_perm x ts).mem_iff.mp hb) with rfl | hbts
      · exact hxt
      · exact ht b hbts
    · rename_i hxt
      push_neg at hxt
      refine List.pairwise_cons.mpr ⟨?_, h⟩
      intro b hb
      rcases List.mem_cons.mp hb with rfl | hbts
      · exact le_of_lt hxt
      · exact le_trans (ht b hbts) (le_of_lt hxt)

theorem sortIntDesc_append_single {T : List ℤ} (x : ℤ)
    (h : List.Pairwise (α := ℤ) (· ≥ ·) T) :
    sortIntDesc (T ++ [x]) = insertDesc x T :=
  List.eq_of_perm_of_sorted
    (((sortIntDesc_perm (T ++ [x])).trans (List.perm_append_singleton x T)).trans
      (insertDesc_perm x T).symm)
    (sortIntDesc_sorted _) (insertDesc_sorted x h)

/-- Streaming top-k: inserting into the kept top `k` and truncating again
agrees with truncating the insertion into the full descending list. -/
theorem take_insertDesc_take (T : List ℤ) (x : ℤ) :
    ∀ k : ℕ, (insertDesc x (T.take k)).take k = (insertDesc x T).take k := by
  induction T with
  | nil => intro k; simp
  | cons t ts ih =>
    intro k
    cases k with
    | zero => simp
    | succ k' =>
      simp only [List.take_succ_cons, insertDesc]
      split
      · simp only [List.take_succ_cons, ih k']
      · simp only [List.take_succ_cons]
        cases k' with
        | zero => simp
        | succ m =>
          simp only [List.take_succ_cons, List.take_take]
          rw [Nat.min_eq_left (Nat.le_succ m)]

theorem map_score_mergeSort (l : List ScoreEntry) :
    (l.mergeSort scoreDescBool).map ScoreEntry.score
      = sortIntDesc (l.map ScoreEntry.score) :=
  List.map_mergeSort (s := fun a b : ℤ => decide (b ≤ a)) (fun _ _ _ _ => rfl)

/-- The scores of the kept list after the fold are exactly the top ten of
all scores submitted so far. -/
theorem runSubmissions_scores :
    ∀ (subs : List (ScoreSubmission × String)) (acc : List ScoreEntry) (S : List ℤ),
      acc.map ScoreEntry.score = (sortIntDesc S).take 10 →
      (subs.foldl (fun hs sd => handle_submit_score hs sd.1 sd.2) acc).map ScoreEntry.score
        = (sortIntDesc (S ++ subs.map subScore)).take 10 := by
  intro subs
  induction subs with
  | nil =>
    intro acc S hacc
    simpa using hacc
  | cons sd rest ih =>
    intro acc S hacc
    have hstep : (handle_submit_score acc sd.1 sd.2).map ScoreEntry.score
        = (sortIntDesc (S ++ [subScore sd])).take 10 := by
      rw [handle_submit_score, List.map_take, map_score_mergeSort, List.map_append,
        hacc]
      have hsorted : List.Pairwise (α := ℤ) (· ≥ ·) ((sortIntDesc S).take 10) :=
        List.Pairwise.sublist (List.take_sublist 10 _) (sortIntDesc_sorted S)
      rw [show (([mkEntry sd.1 sd.2].map ScoreEntry.score) : List ℤ) = [subScore sd] from rfl,
        sortIntDesc_append_single _ hsorted, take_insertDesc_take,
        ← sortIntDesc_append_single _ (sortIntDesc_sorted S),
        sortIntDesc_congr_perm ((sortIntDesc_perm S).append_right [subScore sd])]
    calc (List.foldl (fun hs sd => handle_submit_score hs sd.1 sd.2) acc (sd :: rest)).map
          ScoreEntry.score
        = (sortIntDesc ((S ++ [subScore sd]) ++ rest.map subScore)).take 10 := by
          simpa using ih (handle_submit_score acc sd.1 sd.2) (S ++ [subScore sd]) hstep
      _ = (sortIntDesc (S ++ (sd :: rest).map subScore)).take 10 := by
          rw [List.append_assoc]
          rfl

/-- Every entry of the fold either was in the accumulator or is the entry
built from one of the submissions. -/
theorem runSubmissions_mem :
    ∀ (subs : List (ScoreSubmission × String)) (acc : List ScoreEntry)
      (e : ScoreEntry),
      e ∈ subs.foldl (fun hs sd => handle_submit_score hs sd.1 sd.2) acc →
      e ∈ acc ∨ ∃ sd ∈ subs, e = mkEntry sd.1 sd.2 := by
  intro subs
  induction subs with
  | nil =>
    intro acc e he
    exact Or.inl he
  | cons sd rest ih =>
    intro acc e he
    rcases ih (handle_submit_score acc sd.1 sd.2) e he with hstep | ⟨sd', hsd', rfl⟩
    · rw [handle_submit_score] at hstep
      have h2 := List.mem_mergeSort.mp (List.mem_of_mem_take hstep)
      rcases List.mem_append.mp h2 with hin | hnew
      · exact Or.inl hin
      · exact Or.inr ⟨sd, List.mem_cons_self sd rest, List.mem_singleton.mp hnew⟩
    · exact Or.inr ⟨sd', List.mem_cons_of_mem sd hsd', rfl⟩

/-- Claim C9: after any sequence of `submit_score` requests, every stored
entry's name is the corresponding submitted name truncated to at most 10
characters, the high-score list is sorted descending by score, it holds at
most 10 entries, and its scores are exactly the 10 highest scores submitted
so far. -/
theorem submit_score_top_ten (subs : List (ScoreSubmission × String)) :
    (∀ e ∈ runSubmissions subs, ∃ sd ∈ subs,
      e = mkEntry sd.1 sd.2 ∧ e.name = strTake (sd.1.name.getD "Anonymous") 10 ∧
      e.name.length ≤ 10) ∧
    List.Pairwise (fun a b : ScoreEntry => b.score ≤ a.score) (runSubmissions subs) ∧
    (runSubmissions subs).length = min 10 subs.length ∧
    (runSubmissions subs).map ScoreEntry.score
      = (sortIntDesc (subs.map subScore)).take 10 := by
  have hscores : (runSubmissions subs).map ScoreEntry.score
      = (sortIntDesc (subs.map subScore)).take 10 :=
    runSubmissions_scores subs [] [] (by simp [sortIntDesc])
  refine ⟨?_, ?_, ?_, hscores⟩
  · intro e he
    rcases runSubmissions_mem subs [] e he with hnil | ⟨sd, hsd, rfl⟩
    · simp at hnil
    · refine ⟨sd, hsd, rfl, rfl, ?_⟩
      show ((sd.1.name.getD "Anonymous").data.take 10).length ≤ 10
      rw [List.length_take]
      omega
  · have hp : List.Pairwise (α := ℤ) (· ≥ ·)
        ((runSubmissions subs).map ScoreEntry.score) := by
      rw [hscores]
      exact List.Pairwise.sublist (List.take_sublist 10 _)
        (sortIntDesc_sorted (subs.map subScore))
    exact (List.pairwise_map.mp hp).imp (fun hab => hab)
  · have hl := congrArg List.length hscores
    simp only [List.length_map, List.length_take, sortIntDesc,
      List.length_mergeSort] at hl
    simpa using hl

/-- A submission with an over-long name, used as witness input. -/
def longNameSub : ScoreSubmission :=
  { name := some "VeryLongPlayerName", score := some 75, difficulty := some "hard" }

/-- Witness for claim C9 on a concrete submission with an over-long name. -/
theorem submit_score_top_ten_witness :
    (runSubmissions [(longNameSub, "2026-10-12")]).map ScoreEntry.score
      = (sortIntDesc [75]).take 10 :=
  (submit_score_top_ten [(longNameSub, "2026-10-12")]).2.2.2

end WhackAMole
